import Mathlib

/-!
Verification of the audo-p2p-tracker bootstrap server (src/app.js).

The embedding models the connection-guard chain (ban check, global DoS
counter, per-IP sliding-window rate limiting, auto-ban escalation), the
peer registry (register / unregister / heartbeat, staleness sweep), the
geo lookup wrapper, and the per-connection data handler, as executable
Lean functions over explicit state.

Modelling conventions:
- JS objects used as string-keyed maps (`peerRecord`, `clientRecord`,
  `banList`) become association lists `List (String × β)`; assignment
  updates an existing key in place (JS objects keep insertion order) and
  appends a fresh key at the end; `delete` removes the key.
- `Date.now()` timestamps are `Nat`.  JS computes `now - ts` with signed
  numbers; the code only compares such differences with positive bounds
  (`< WINDOW_MS`, `> PEER_TIMEOUT_MS`), and for `ts > now` the JS result
  is negative while Nat subtraction gives 0, which decides both
  comparisons identically, so `Nat` subtraction is faithful.
- Coordinates are exact rationals `Rat`; JS truthiness of a number field
  (`latitude && longitude`) is `≠ 0` (absent fields are `Option.none`).
- The haversine `distance` is computed by the source in binary floating
  point with trigonometric library calls; the ranking pipeline is
  modelled over an arbitrary distance key `d : Coord → Coord → Rat`, and
  the ordering / filtering / truncation claims are proved for every such
  key, hence in particular for the key the source computes.
- The external collaborators (axios geo provider, `JSON.parse`) enter as
  explicit parameters: the provider's reply is an `Option ProviderData`
  (`none` = network error / timeout), the parser is a function
  `String → Option ActionMsg` (`none` = parse exception).
-/

namespace AudoTracker

/-! ## Constants (src/app.js lines 46-76) -/

def SUCCESS_REGISTER : Nat := 1000
def SUCCESS_UNREGISTER : Nat := 1001
def SUCCESS_HEARTBEAT : Nat := 1002
def ERROR_UNKNOWN_ACTION : Nat := 2000
def ERROR_INVALID_JSON : Nat := 2001
def ERROR_RATE_LIMIT : Nat := 2002
def ERROR_GLOBAL_DOS : Nat := 2003
def ERROR_PAYLOAD_TOO_LARGE : Nat := 2004
def ERROR_IDLE_TIMEOUT : Nat := 2005
def ERROR_GEO_LOOKUP_FAILED : Nat := 2006

def RATE_LIMIT : Nat := 5
def WINDOW_MS : Nat := 60 * 1000
def MAX_CONN_PER_SECOND : Nat := 100
def RESPONSE_PEER_LIMIT : Nat := 20
def PEER_TIMEOUT_MS : Nat := 5 * 60 * 1000

/-! ## Association-list maps with JS object semantics -/

def lookupA {β : Type} : List (String × β) → String → Option β
  | [], _ => none
  | (k0, v0) :: rest, k => if k0 = k then some v0 else lookupA rest k

def insertA {β : Type} : List (String × β) → String → β → List (String × β)
  | [], k, v => [(k, v)]
  | (k0, v0) :: rest, k, v =>
      if k0 = k then (k, v) :: rest else (k0, v0) :: insertA rest k v

def eraseA {β : Type} : List (String × β) → String → List (String × β)
  | [], _ => []
  | (k0, v0) :: rest, k =>
      if k0 = k then rest else (k0, v0) :: eraseA rest k

/-! ## Data model -/

structure Coord where
  latitude : Rat
  longitude : Rat
deriving DecidableEq

structure PeerInfo where
  geo : Coord
  firstSeen : Nat
  lastSeen : Nat
deriving DecidableEq

structure PeerEntry where
  ip : String
  latitude : Rat
  longitude : Rat
deriving DecidableEq

/-- Reply body of the external geolocation provider (`res.data`):
`latitude` / `longitude` fields that may be absent. -/
structure ProviderData where
  latitude : Option Rat
  longitude : Option Rat
deriving DecidableEq

/-- JS truthiness of a destructured numeric field: `undefined` (absent)
and `0` are falsy. -/
def numTruthy : Option Rat → Bool
  | none => false
  | some x => decide (x ≠ 0)

/-! ## isPrivateIP / getGeo (src/app.js lines 135-168) -/

/-- `String.startsWith`, modelled on the underlying character lists (the
core implementation walks byte positions, which the kernel cannot
evaluate; the character-list prefix test is its specification). -/
def strStartsWith (s p : String) : Bool := p.data.isPrefixOf s.data

def isPrivateIP (ip : String) : Bool :=
  strStartsWith ip "127." || strStartsWith ip "192.168." || strStartsWith ip "10." ||
    strStartsWith ip "172." || decide (ip = "::1")

/-- `getGeo` with the provider reply passed explicitly: private IPs
short-circuit to the dummy coordinate; otherwise a successful reply with
both fields truthy yields a coordinate, anything else yields `none`. -/
def getGeo (ip : String) (provider : Option ProviderData) : Option Coord :=
  if isPrivateIP ip then some ⟨0, 0⟩
  else
    match provider with
    | some dta =>
        if numTruthy dta.latitude && numTruthy dta.longitude then
          some ⟨dta.latitude.getD 0, dta.longitude.getD 0⟩
        else none
    | none => none

/-! ## Peer ranking (src/app.js lines 310-320) -/

/-- Comparator order of the JS sort `distance(a, geo) - distance(b, geo)`
with the distance key `d`: entry `a` precedes `b` when its distance to
the reference coordinate is no larger. -/
def peerLE (d : Coord → Coord → Rat) (geo : Coord) (a b : PeerEntry) : Prop :=
  d ⟨a.latitude, a.longitude⟩ geo ≤ d ⟨b.latitude, b.longitude⟩ geo

instance peerLEDecidable (d : Coord → Coord → Rat) (geo : Coord) :
    DecidableRel (peerLE d geo) :=
  fun _ _ => inferInstanceAs (Decidable (_ ≤ _))

instance peerLETotal (d : Coord → Coord → Rat) (geo : Coord) :
    IsTotal PeerEntry (peerLE d geo) :=
  ⟨fun _ _ => le_total _ _⟩

instance peerLETrans (d : Coord → Coord → Rat) (geo : Coord) :
    IsTrans PeerEntry (peerLE d geo) :=
  ⟨fun _ _ _ => le_trans⟩

/-- The peer list built on a successful register: map records to
`{ip, latitude, longitude}` entries, keep those whose coordinates are
both truthy, and sort ascending by distance to the registrant's
coordinate.  `Array.prototype.sort` is a stable sort (ES2019) and a
stable sort by a total preorder comparator has a unique result, so it is
modelled by stable insertion sort on `peerLE`. -/
def buildPeers (d : Coord → Coord → Rat) (pr : List (String × PeerInfo))
    (geo : Coord) : List PeerEntry :=
  List.insertionSort (peerLE d geo)
    ((pr.map (fun kv => PeerEntry.mk kv.1 kv.2.geo.latitude kv.2.geo.longitude)).filter
      (fun e => decide (e.latitude ≠ 0) && decide (e.longitude ≠ 0)))

/-! ## Register (src/app.js lines 290-326) -/

structure RegisterOutcome where
  code : Nat
  peerRecord : List (String × PeerInfo)
  peers : Option (List PeerEntry)
  lookupUsed : Bool
deriving DecidableEq

/-- The coordinate the register branch uses for `ip`: the stored geo when
a record exists (the `peerRecord[ip] && peerRecord[ip].geo` short-circuit
— a record's geo object is always truthy), otherwise the `getGeo`
result. -/
def registrantGeo (pr : List (String × PeerInfo)) (ip : String)
    (provider : Option ProviderData) : Option Coord :=
  match lookupA pr ip with
  | some info => some info.geo
  | none => getGeo ip provider

/-- The register branch: reuse the stored coordinate or consult `getGeo`;
on failure reply 2006 with no mutation; on success overwrite the record
with `firstSeen = lastSeen = now`, then build, sort and truncate the peer
list.  `lookupUsed` records whether `getGeo` was invoked (the `||`
short-circuit skips it when a record exists). -/
def registerStep (d : Coord → Coord → Rat) (pr : List (String × PeerInfo))
    (ip : String) (now : Nat) (provider : Option ProviderData) : RegisterOutcome :=
  match lookupA pr ip with
  | some info =>
      let pr' := insertA pr ip ⟨info.geo, now, now⟩
      ⟨SUCCESS_REGISTER, pr', some ((buildPeers d pr' info.geo).take RESPONSE_PEER_LIMIT), false⟩
  | none =>
      match getGeo ip provider with
      | none => ⟨ERROR_GEO_LOOKUP_FAILED, pr, none, true⟩
      | some g =>
          let pr' := insertA pr ip ⟨g, now, now⟩
          ⟨SUCCESS_REGISTER, pr', some ((buildPeers d pr' g).take RESPONSE_PEER_LIMIT), true⟩

/-! ## Action dispatch (src/app.js lines 290-347) -/

inductive ActionMsg where
  | register
  | unregister
  | heartbeat
  | other
deriving DecidableEq

structure ActionResult where
  code : Nat
  peerRecord : List (String × PeerInfo)
  peers : Option (List PeerEntry)
deriving DecidableEq

def handleAction (d : Coord → Coord → Rat) (pr : List (String × PeerInfo))
    (ip : String) (now : Nat) (provider : Option ProviderData) :
    ActionMsg → ActionResult
  | .register =>
      let r := registerStep d pr ip now provider
      ⟨r.code, r.peerRecord, r.peers⟩
  | .unregister => ⟨SUCCESS_UNREGISTER, eraseA pr ip, none⟩
  | .heartbeat =>
      match lookupA pr ip with
      | some info => ⟨SUCCESS_HEARTBEAT, insertA pr ip ⟨info.geo, info.firstSeen, now⟩, none⟩
      | none => ⟨SUCCESS_HEARTBEAT, pr, none⟩
  | .other => ⟨ERROR_UNKNOWN_ACTION, pr, none⟩

/-! ## Per-connection data handler (src/app.js lines 267-359) -/

structure DataResult where
  responses : List Nat
  ended : Bool
  buffer : String
  peerRecord : List (String × PeerInfo)

/-- One invocation of the `sock.on("data")` handler: append the chunk to
the accumulated buffer; if the buffer exceeds 2048 bytes reply 2004 and
end; otherwise parse the trimmed buffer (`parse` plays `JSON.parse`,
`none` = exception → 2001) and dispatch the action; `finally` always ends
the socket.  `responses` lists the status codes written, in order. -/
def handleData (d : Coord → Coord → Rat) (parse : String → Option ActionMsg)
    (pr : List (String × PeerInfo)) (ip : String) (now : Nat)
    (provider : Option ProviderData) (buffer chunk : String) : DataResult :=
  let buf := buffer ++ chunk
  if buf.length > 2048 then
    ⟨[ERROR_PAYLOAD_TOO_LARGE], true, buf, pr⟩
  else
    match parse buf.trim with
    | none => ⟨[ERROR_INVALID_JSON], true, buf, pr⟩
    | some a =>
        let r := handleAction d pr ip now provider a
        ⟨[r.code], true, buf, r.peerRecord⟩

/-- A whole session on one accepted connection, as the sequence of data
events Node delivers for it: the handler runs once per chunk over the
shared `dataBuffer` (ending the writable side does not stop further
`data` events from firing).  Returns all status codes written. -/
def sessionRun (d : Coord → Coord → Rat) (parse : String → Option ActionMsg)
    (ip : String) (now : Nat) (provider : Option ProviderData) :
    List (String × PeerInfo) → String → List String → List Nat
  | _, _, [] => []
  | pr, buffer, c :: cs =>
      let r := handleData d parse pr ip now provider buffer c
      r.responses ++ sessionRun d parse ip now provider r.peerRecord r.buffer cs

/-! ## Staleness sweep (src/app.js lines 190-201) -/

def sweepPeers (pr : List (String × PeerInfo)) (now : Nat) :
    List (String × PeerInfo) :=
  pr.filter (fun kv => !decide (now - kv.2.lastSeen > PEER_TIMEOUT_MS))

/-! ## Guard chain (src/app.js lines 206-250) -/

inductive GuardResult where
  | dropped
  | globalDos
  | rateLimited
  | admitted
deriving DecidableEq

/-- Status code written for each guard outcome (`dropped` and `admitted`
write nothing at the guard stage). -/
def guardResponse : GuardResult → Option Nat
  | .dropped => none
  | .globalDos => some ERROR_GLOBAL_DOS
  | .rateLimited => some ERROR_RATE_LIMIT
  | .admitted => none

structure ServerState where
  peerRecord : List (String × PeerInfo)
  clientRecord : List (String × List Nat)
  banList : List (String × Nat)
  globalRequestCount : Nat
deriving DecidableEq

def initState : ServerState := ⟨[], [], [], 0⟩

/-- `banList[ip] > now` (an absent entry compares falsy in JS). -/
def isBannedNow (bl : List (String × Nat)) (ip : String) (now : Nat) : Bool :=
  match lookupA bl ip with
  | some exp => decide (now < exp)
  | none => false

/-- The guard chain run on one inbound connection: empty/banned source →
drop with no response; global counter increment and cap; sliding-window
filter; at or above `RATE_LIMIT` in-window entries → rate-limit response
(the timestamp is still appended) and return; otherwise append and — only
on this admitted path — run the auto-ban check `length > RATE_LIMIT * 3`. -/
def guardStep (st : ServerState) (ip : String) (now : Nat) :
    GuardResult × ServerState :=
  if ip = "" ∨ isBannedNow st.banList ip now = true then (.dropped, st)
  else
    let st1 : ServerState := { st with globalRequestCount := st.globalRequestCount + 1 }
    if st1.globalRequestCount > MAX_CONN_PER_SECOND then (.globalDos, st1)
    else
      let w := ((lookupA st1.clientRecord ip).getD []).filter
        (fun ts => decide (now - ts < WINDOW_MS))
      if w.length ≥ RATE_LIMIT then
        (.rateLimited, { st1 with clientRecord := insertA st1.clientRecord ip (w ++ [now]) })
      else
        let w' := w ++ [now]
        let st2 := { st1 with clientRecord := insertA st1.clientRecord ip w' }
        if w'.length > RATE_LIMIT * 3 then
          (.admitted, { st2 with banList := insertA st2.banList ip (now + WINDOW_MS * 10) })
        else
          (.admitted, st2)

/-- Server-level events: an inbound connection attempt, or the 1-second
reset of the global counter. -/
inductive Event where
  | request (ip : String) (now : Nat)
  | resetGlobal
deriving DecidableEq

/-- Run a sequence of events through the guard chain, collecting for each
request its source, time and guard outcome. -/
def runGuard : ServerState → List Event → ServerState × List (String × Nat × GuardResult)
  | st, [] => (st, [])
  | st, Event.request ip now :: rest =>
      let r := guardStep st ip now
      let rec2 := runGuard r.2 rest
      (rec2.1, (ip, now, r.1) :: rec2.2)
  | st, Event.resetGlobal :: rest =>
      runGuard { st with globalRequestCount := 0 } rest

/-! ## Registry-level event traces (register / unregister / heartbeat /
sweep), used for staleness and private-IP claims -/

inductive PeerEvent where
  | register (ip : String) (now : Nat) (provider : Option ProviderData)
  | unregister (ip : String)
  | heartbeat (ip : String) (now : Nat)
  | sweep (now : Nat)
deriving DecidableEq

/-- Apply one registry event; a successful register also emits the
`(registrant, peers)` response payload. -/
def applyPeerEvent (d : Coord → Coord → Rat) (pr : List (String × PeerInfo)) :
    PeerEvent → List (String × PeerInfo) × Option (String × List PeerEntry)
  | .register ip now provider =>
      let r := registerStep d pr ip now provider
      (r.peerRecord, (r.peers.map (fun ps => (ip, ps))))
  | .unregister ip => (eraseA pr ip, none)
  | .heartbeat ip now =>
      match lookupA pr ip with
      | some info => (insertA pr ip ⟨info.geo, info.firstSeen, now⟩, none)
      | none => (pr, none)
  | .sweep now => (sweepPeers pr now, none)

/-- Fold a registry event trace, collecting every emitted register
response payload. -/
def runPeerTrace (d : Coord → Coord → Rat) :
    List (String × PeerInfo) → List PeerEvent →
      List (String × PeerInfo) × List (String × List PeerEntry)
  | pr, [] => (pr, [])
  | pr, e :: es =>
      let r := applyPeerEvent d pr e
      let rec2 := runPeerTrace d r.1 es
      (rec2.1, (match r.2 with | some out => out :: rec2.2 | none => rec2.2))

/-! ## Association-list lemmas -/

theorem lookupA_insertA_self {β : Type} (m : List (String × β)) (k : String) (v : β) :
    lookupA (insertA m k v) k = some v := by
  induction m with
  | nil => simp [insertA, lookupA]
  | cons kv rest ih =>
      obtain ⟨k0, v0⟩ := kv
      by_cases h : k0 = k
      · simp [insertA, h, lookupA]
      · simp [insertA, h, lookupA, ih]

theorem lookupA_insertA_ne {β : Type} (m : List (String × β)) (k k' : String) (v : β)
    (h : k' ≠ k) : lookupA (insertA m k v) k' = lookupA m k' := by
  induction m with
  | nil => simp [insertA, lookupA, Ne.symm h]
  | cons kv rest ih =>
      obtain ⟨k0, v0⟩ := kv
      by_cases h0 : k0 = k
      · subst h0
        simp [insertA, lookupA, Ne.symm h]
      · simp only [insertA, if_neg h0, lookupA]
        by_cases h1 : k0 = k'
        · simp [h1]
        · simp [h1, ih]

theorem lookupA_mem {β : Type} {m : List (String × β)} {k : String} {v : β}
    (h : lookupA m k = some v) : (k, v) ∈ m := by
  induction m with
  | nil => simp [lookupA] at h
  | cons kv rest ih =>
      obtain ⟨k0, v0⟩ := kv
      by_cases h0 : k0 = k
      · subst h0
        simp [lookupA] at h
        simp [h]
      · simp [lookupA, h0] at h
        simp [ih h]

theorem lookupA_eq_none {β : Type} {m : List (String × β)} {k : String} :
    lookupA m k = none ↔ k ∉ m.map Prod.fst := by
  induction m with
  | nil => simp [lookupA]
  | cons kv rest ih =>
      obtain ⟨k0, v0⟩ := kv
      by_cases h0 : k0 = k
      · subst h0
        simp [lookupA]
      · simp [lookupA, h0, Ne.symm h0, ih]

theorem mem_insertA {β : Type} {m : List (String × β)} {k : String} {v : β}
    {kv : String × β} (h : kv ∈ insertA m k v) : kv ∈ m ∨ kv = (k, v) := by
  induction m with
  | nil => simp [insertA] at h; simp [h]
  | cons kv0 rest ih =>
      obtain ⟨k0, v0⟩ := kv0
      by_cases h0 : k0 = k
      · simp [insertA, h0] at h
        rcases h with h | h
        · right; simp [h]
        · left; simp [h]
      · simp [insertA, h0] at h
        rcases h with h | h
        · left; simp [h]
        · rcases ih h with h1 | h1
          · left; simp [h1]
          · right; exact h1

theorem keys_insertA {β : Type} (m : List (String × β)) (k k' : String) (v : β) :
    k' ∈ (insertA m k v).map Prod.fst ↔ k' ∈ m.map Prod.fst ∨ k' = k := by
  induction m with
  | nil => simp [insertA, eq_comm]
  | cons kv0 rest ih =>
      obtain ⟨k0, v0⟩ := kv0
      by_cases h0 : k0 = k
      · subst h0
        simp [insertA, eq_comm]
        tauto
      · simp [insertA, h0, ih]
        tauto

theorem mem_eraseA {β : Type} {m : List (String × β)} {k : String}
    {kv : String × β} (h : kv ∈ eraseA m k) : kv ∈ m := by
  induction m with
  | nil => simp [eraseA] at h
  | cons kv0 rest ih =>
      obtain ⟨k0, v0⟩ := kv0
      by_cases h0 : k0 = k
      · simp [eraseA, h0] at h
        simp [h]
      · simp [eraseA, h0] at h
        rcases h with h | h
        · simp [h]
        · simp [ih h]

/-! ## Ranking lemmas -/

theorem buildPeers_mem {d : Coord → Coord → Rat} {pr : List (String × PeerInfo)}
    {geo : Coord} {e : PeerEntry} (h : e ∈ buildPeers d pr geo) :
    (∃ kv, kv ∈ pr ∧ e = ⟨kv.1, kv.2.geo.latitude, kv.2.geo.longitude⟩) ∧
      e.latitude ≠ 0 ∧ e.longitude ≠ 0 := by
  unfold buildPeers at h
  rw [List.mem_insertionSort] at h
  rw [List.mem_filter] at h
  obtain ⟨he, hp⟩ := h
  obtain ⟨kv, hkv, hh⟩ := List.mem_map.mp he
  constructor
  · exact ⟨kv, hkv, hh.symm⟩
  · constructor
    · have := (Bool.and_eq_true _ _).mp hp |>.1
      simpa using this
    · have := (Bool.and_eq_true _ _).mp hp |>.2
      simpa using this

theorem buildPeers_sorted (d : Coord → Coord → Rat) (pr : List (String × PeerInfo))
    (geo : Coord) : (buildPeers d pr geo).Pairwise (peerLE d geo) :=
  List.sorted_insertionSort (peerLE d geo) _

theorem rankedPeers_props (d : Coord → Coord → Rat) (pr : List (String × PeerInfo))
    (g : Coord) :
    ((buildPeers d pr g).take RESPONSE_PEER_LIMIT).Pairwise (peerLE d g) ∧
      (∀ e ∈ (buildPeers d pr g).take RESPONSE_PEER_LIMIT, e.latitude ≠ 0 ∧ e.longitude ≠ 0) ∧
      ((buildPeers d pr g).take RESPONSE_PEER_LIMIT).length ≤ RESPONSE_PEER_LIMIT := by
  refine ⟨?_, ?_, ?_⟩
  · exact List.Pairwise.sublist (List.take_sublist _ _) (buildPeers_sorted d pr g)
  · intro e he
    exact (buildPeers_mem (List.mem_of_mem_take he)).2
  · exact List.length_take_le _ _

/-! ## Claim C5 -/

/-- C5: for every register action where the geo lookup fails and no
record already exists for the source address, the response has status
code ERROR_GEO_LOOKUP_FAILED (2006) and the peer registry is left
unchanged — no record is created or updated for that address. -/
theorem C5_geo_failure_no_mutation (d : Coord → Coord → Rat)
    (pr : List (String × PeerInfo)) (ip : String) (now : Nat)
    (provider : Option ProviderData)
    (habsent : lookupA pr ip = none) (hfail : getGeo ip provider = none) :
    registerStep d pr ip now provider =
      ⟨ERROR_GEO_LOOKUP_FAILED, pr, none, true⟩ := by
  simp [registerStep, habsent, hfail]

theorem C5_witness :
    lookupA ([] : List (String × PeerInfo)) "1.2.3.4" = none ∧
      getGeo "1.2.3.4" none = none ∧
      registerStep (fun _ _ => 0) [] "1.2.3.4" 5 none =
        ⟨ERROR_GEO_LOOKUP_FAILED, [], none, true⟩ :=
  ⟨by decide, by decide,
    C5_geo_failure_no_mutation (fun _ _ => 0) [] "1.2.3.4" 5 none (by decide) (by decide)⟩

/-! ## Claim C6 -/

/-- C6: for every register by a source address that already has a
registry record, the stored coordinate is reused without invoking the
external geo lookup (`lookupUsed = false`), the register succeeds, and
the resulting record has both `firstSeen` and `lastSeen` reset to the
connection time `now`. -/
theorem C6_reregister_reuses_geo (d : Coord → Coord → Rat)
    (pr : List (String × PeerInfo)) (ip : String) (now : Nat)
    (provider : Option ProviderData) (info : PeerInfo)
    (h : lookupA pr ip = some info) :
    (registerStep d pr ip now provider).lookupUsed = false ∧
      (registerStep d pr ip now provider).code = SUCCESS_REGISTER ∧
      lookupA (registerStep d pr ip now provider).peerRecord ip =
        some ⟨info.geo, now, now⟩ := by
  simp [registerStep, h, lookupA_insertA_self]

theorem C6_witness :
    lookupA [("1.2.3.4", PeerInfo.mk ⟨3, 4⟩ 1 2)] "1.2.3.4" =
        some (PeerInfo.mk ⟨3, 4⟩ 1 2) ∧
      (registerStep (fun _ _ => 0) [("1.2.3.4", PeerInfo.mk ⟨3, 4⟩ 1 2)] "1.2.3.4" 9
          none).lookupUsed = false ∧
      (registerStep (fun _ _ => 0) [("1.2.3.4", PeerInfo.mk ⟨3, 4⟩ 1 2)] "1.2.3.4" 9
          none).code = SUCCESS_REGISTER ∧
      lookupA (registerStep (fun _ _ => 0) [("1.2.3.4", PeerInfo.mk ⟨3, 4⟩ 1 2)] "1.2.3.4" 9
          none).peerRecord "1.2.3.4" = some (PeerInfo.mk ⟨3, 4⟩ 9 9) :=
  ⟨by decide,
    C6_reregister_reuses_geo (fun _ _ => 0) [("1.2.3.4", PeerInfo.mk ⟨3, 4⟩ 1 2)]
      "1.2.3.4" 9 none (PeerInfo.mk ⟨3, 4⟩ 1 2) (by decide)⟩

/-! ## Claim C10 -/

/-- C10: for a public source address, a provider reply whose latitude or
longitude is 0 or absent makes `getGeo` return `none`, and a first-time
register for that address fails with ERROR_GEO_LOOKUP_FAILED (2006) with
the registry unchanged, exactly as if the lookup had errored. -/
theorem C10_zero_coordinate_rejected (d : Coord → Coord → Rat)
    (pr : List (String × PeerInfo)) (ip : String) (now : Nat)
    (dta : ProviderData) (hpub : isPrivateIP ip = false)
    (hbad : numTruthy dta.latitude = false ∨ numTruthy dta.longitude = false)
    (habsent : lookupA pr ip = none) :
    getGeo ip (some dta) = none ∧
      registerStep d pr ip now (some dta) =
        ⟨ERROR_GEO_LOOKUP_FAILED, pr, none, true⟩ := by
  have hg : getGeo ip (some dta) = none := by
    rcases hbad with hb | hb <;> simp [getGeo, hpub, hb]
  exact ⟨hg, by simp [registerStep, habsent, hg]⟩

theorem C10_witness :
    isPrivateIP "1.2.3.4" = false ∧
      numTruthy (ProviderData.mk (some 12) (some 0)).longitude = false ∧
      lookupA ([] : List (String × PeerInfo)) "1.2.3.4" = none ∧
      getGeo "1.2.3.4" (some (ProviderData.mk (some 12) (some 0))) = none ∧
      registerStep (fun _ _ => 0) [] "1.2.3.4" 5 (some (ProviderData.mk (some 12) (some 0))) =
        ⟨ERROR_GEO_LOOKUP_FAILED, [], none, true⟩ :=
  ⟨by decide, by decide, by decide,
    C10_zero_coordinate_rejected (fun _ _ => 0) [] "1.2.3.4" 5
      (ProviderData.mk (some 12) (some 0)) (by decide) (Or.inr (by decide)) (by decide)⟩

/-! ## Claim C3 -/

/-- C3: for every successful register, the returned peers list is ordered
non-decreasing by the sort comparator's distance from the registrant's
coordinate (`peerLE d g`, for every distance key `d` — in particular the
haversine distance the source computes in floating point), contains no
candidate whose latitude or longitude is zero, and has length at most
RESPONSE_PEER_LIMIT (20). -/
theorem C3_register_peers_ranked (d : Coord → Coord → Rat)
    (pr : List (String × PeerInfo)) (ip : String) (now : Nat)
    (provider : Option ProviderData) (g : Coord) (P : List PeerEntry)
    (hg : registrantGeo pr ip provider = some g)
    (hP : (registerStep d pr ip now provider).peers = some P) :
    P.Pairwise (peerLE d g) ∧ (∀ e ∈ P, e.latitude ≠ 0 ∧ e.longitude ≠ 0) ∧
      P.length ≤ RESPONSE_PEER_LIMIT := by
  unfold registrantGeo at hg
  unfold registerStep at hP
  cases hl : lookupA pr ip with
  | some info =>
      rw [hl] at hg hP
      simp only [Option.some.injEq] at hg hP
      rw [← hg, ← hP]
      exact rankedPeers_props d (insertA pr ip ⟨info.geo, now, now⟩) info.geo
  | none =>
      rw [hl] at hg hP
      cases hge : getGeo ip provider with
      | none =>
          rw [hge] at hP
          simp at hP
      | some g' =>
          rw [hge] at hg hP
          simp only [Option.some.injEq] at hg hP
          rw [← hg, ← hP]
          exact rankedPeers_props d (insertA pr ip ⟨g', now, now⟩) g'

/-- Distance key used by witnesses: a concrete computable stand-in for
the floating-point haversine key, which `C3_register_peers_ranked`
quantifies over. -/
def dW : Coord → Coord → Rat := fun a _ => a.latitude

def prW : List (String × PeerInfo) := [("5.6.7.8", PeerInfo.mk ⟨30, 40⟩ 0 0)]

def provW : Option ProviderData := some (ProviderData.mk (some 10) (some 10))

def peersW : List PeerEntry := [⟨"1.2.3.4", 10, 10⟩, ⟨"5.6.7.8", 30, 40⟩]

theorem C3_witness :
    registrantGeo prW "1.2.3.4" provW = some ⟨10, 10⟩ ∧
      (registerStep dW prW "1.2.3.4" 7 provW).peers = some peersW ∧
      (peersW.Pairwise (peerLE dW ⟨10, 10⟩) ∧
        (∀ e ∈ peersW, e.latitude ≠ 0 ∧ e.longitude ≠ 0) ∧
        peersW.length ≤ RESPONSE_PEER_LIMIT) :=
  ⟨by decide, by decide,
    C3_register_peers_ranked dW prW "1.2.3.4" 7 provW ⟨10, 10⟩ peersW (by decide) (by decide)⟩

/-! ## Guard-chain lemmas -/

/-- On a state with an empty ban table, one guard step keeps the ban
table empty (the admitted path appends to a window of filtered length
`< RATE_LIMIT`, so the auto-ban threshold `> RATE_LIMIT * 3` is never
met) and drops the connection only for an empty source address. -/
theorem guardStep_banList_empty (st : ServerState) (ip : String) (now : Nat)
    (h : st.banList = []) :
    (guardStep st ip now).2.banList = [] ∧
      ((guardStep st ip now).1 = GuardResult.dropped → ip = "") := by
  have hb : isBannedNow st.banList ip now = false := by
    rw [h]; simp [isBannedNow, lookupA]
  unfold guardStep
  rw [hb]
  by_cases hip : ip = ""
  · simp [hip, h]
  · simp only [hip, Bool.false_eq_true, or_self, if_false, false_or]
    split_ifs with h1 h2 h3
    · exact ⟨h, fun hc => by cases hc⟩
    · exact ⟨h, fun hc => by cases hc⟩
    · exfalso
      simp only [List.length_append, List.length_cons, List.length_nil] at h3
      simp only [ge_iff_le, not_le] at h2
      omega
    · exact ⟨h, fun hc => by cases hc⟩

/-- On the admitted path the stored window for the source after the
append has at most `RATE_LIMIT` entries. -/
theorem guardStep_admitted_window (st : ServerState) (ip : String) (now : Nat)
    (w : List Nat) (hadm : (guardStep st ip now).1 = GuardResult.admitted)
    (hw : lookupA (guardStep st ip now).2.clientRecord ip = some w) :
    w.length ≤ RATE_LIMIT := by
  unfold guardStep at hadm hw
  by_cases h0 : ip = "" ∨ isBannedNow st.banList ip now = true
  · rw [if_pos h0] at hadm
    cases hadm
  · rw [if_neg h0] at hadm hw
    dsimp only at hadm hw
    split_ifs at hadm hw with h1 h2 h3
    all_goals
      dsimp only at hw
      rw [lookupA_insertA_self] at hw
      simp only [Option.some.injEq] at hw
      subst hw
      simp only [ge_iff_le, not_le] at h2
      simp only [List.length_append, List.length_cons, List.length_nil]
      simp only [RATE_LIMIT] at h2 ⊢
      omega

/-- The ban table stays empty along any event trace starting from an
empty ban table, and no request with a non-empty source is dropped. -/
theorem runGuard_banList_empty (evs : List Event) (st : ServerState)
    (h : st.banList = []) :
    (runGuard st evs).1.banList = [] ∧
      ∀ t ∈ (runGuard st evs).2, t.1 ≠ "" → t.2.2 ≠ GuardResult.dropped := by
  induction evs generalizing st with
  | nil =>
      simp [runGuard, h]
  | cons e rest ih =>
      cases e with
      | request ip now =>
          have hstep := guardStep_banList_empty st ip now h
          have ihh := ih (guardStep st ip now).2 hstep.1
          simp only [runGuard]
          refine ⟨ihh.1, ?_⟩
          intro t ht
          rcases List.mem_cons.mp ht with ht | ht
          · subst ht
            intro hne hdrop
            exact hne (hstep.2 hdrop)
          · exact ihh.2 t ht
      | resetGlobal =>
          simp only [runGuard]
          exact ih { st with globalRequestCount := 0 } h

/-! ## Claim C8 -/

/-- C8: for every sequence of inbound connections, the ban table stays
empty — the auto-ban branch is only reachable on admitted requests, whose
window after the append has at most RATE_LIMIT (5) entries and so never
exceeds RATE_LIMIT * 3 (15) — and consequently the banned-source guard
never drops a connection for any non-empty source address. -/
theorem C8_banList_stays_empty (evs : List Event) :
    (runGuard initState evs).1.banList = [] ∧
      (∀ t ∈ (runGuard initState evs).2, t.1 ≠ "" → t.2.2 ≠ GuardResult.dropped) ∧
      (∀ (st : ServerState) (ip : String) (now : Nat) (w : List Nat),
        (guardStep st ip now).1 = GuardResult.admitted →
        lookupA (guardStep st ip now).2.clientRecord ip = some w →
        w.length ≤ RATE_LIMIT) := by
  have hrun := runGuard_banList_empty evs initState (by rfl)
  exact ⟨hrun.1, hrun.2, guardStep_admitted_window⟩

theorem C8_witness :
    (runGuard initState [Event.request "9.9.9.9" 0]).1.banList = [] ∧
      ("9.9.9.9", 0, GuardResult.admitted) ∈
        (runGuard initState [Event.request "9.9.9.9" 0]).2 ∧
      GuardResult.admitted ≠ GuardResult.dropped := by
  refine ⟨(C8_banList_stays_empty [Event.request "9.9.9.9" 0]).1, by decide, ?_⟩
  exact (C8_banList_stays_empty [Event.request "9.9.9.9" 0]).2.1
    ("9.9.9.9", 0, GuardResult.admitted) (by decide) (by decide)

/-! ## Claim C1 -/

/-- C1 (code bug): the specified ban escalation never fires.  Evaluated
at the failing input — 16 connection attempts from one source at the same
timestamp — the stored window has 16 entries, strictly more than
RATE_LIMIT * 3 = 15, yet the ban table is still empty and the source is
not banned for the next request: the rate-limit rejection path returns
before the auto-ban check, which is only reachable on admitted requests
whose window never exceeds RATE_LIMIT entries. -/
theorem C1_escalation_never_bans :
    lookupA (runGuard initState
        (List.replicate 16 (Event.request "9.9.9.9" 0))).1.clientRecord "9.9.9.9" =
      some (List.replicate 16 0) ∧
      (List.replicate 16 0).length > RATE_LIMIT * 3 ∧
      (runGuard initState (List.replicate 16 (Event.request "9.9.9.9" 0))).1.banList = [] ∧
      isBannedNow (runGuard initState
        (List.replicate 16 (Event.request "9.9.9.9" 0))).1.banList "9.9.9.9" 1 = false :=
  ⟨by decide, by decide, by decide, by decide⟩

/-! ## Claim C4 -/

/-- C4: from a fresh state, five admitted requests from one source whose
timestamps all lie within one WINDOW_MS window are admitted, and the
sixth request inside the same window is rejected with ERROR_RATE_LIMIT
(2002) while its timestamp is still appended to the stored window. -/
theorem C4_sixth_request_rate_limited (ip : String) (t : Fin 6 → Nat)
    (hip : ip ≠ "") (hmono : ∀ i j : Fin 6, i ≤ j → t i ≤ t j)
    (hw : t 5 - t 0 < WINDOW_MS) :
    ((runGuard initState
        [Event.request ip (t 0), Event.request ip (t 1), Event.request ip (t 2),
          Event.request ip (t 3), Event.request ip (t 4),
          Event.request ip (t 5)]).2.map (fun r => r.2.2)) =
      [GuardResult.admitted, GuardResult.admitted, GuardResult.admitted,
        GuardResult.admitted, GuardResult.admitted, GuardResult.rateLimited] ∧
      guardResponse GuardResult.rateLimited = some ERROR_RATE_LIMIT ∧
      lookupA (runGuard initState
        [Event.request ip (t 0), Event.request ip (t 1), Event.request ip (t 2),
          Event.request ip (t 3), Event.request ip (t 4),
          Event.request ip (t 5)]).1.clientRecord ip =
        some [t 0, t 1, t 2, t 3, t 4, t 5] := by
  have hle5 : ∀ j : Fin 6, t j ≤ t 5 := by
    intro j
    refine hmono j 5 ?_
    have := j.isLt
    simp only [Fin.le_def]
    omega
  have h0le : ∀ i : Fin 6, t 0 ≤ t i := by
    intro i
    refine hmono 0 i ?_
    simp [Fin.le_def]
  have hkey : ∀ i j : Fin 6, t j - t i < WINDOW_MS := fun i j =>
    lt_of_le_of_lt (tsub_le_tsub (hle5 j) (h0le i)) hw
  have hd : ∀ i j : Fin 6, decide (t j - t i < WINDOW_MS) = true := fun i j =>
    decide_eq_true (hkey i j)
  refine ⟨?_, by rfl, ?_⟩ <;>
    simp [runGuard, guardStep, initState, isBannedNow, lookupA, insertA, hip, hd,
      RATE_LIMIT, MAX_CONN_PER_SECOND, List.filter]

theorem C4_witness :
    ((runGuard initState
        [Event.request "9.9.9.9" 0, Event.request "9.9.9.9" 1, Event.request "9.9.9.9" 2,
          Event.request "9.9.9.9" 3, Event.request "9.9.9.9" 4,
          Event.request "9.9.9.9" 5]).2.map (fun r => r.2.2)) =
      [GuardResult.admitted, GuardResult.admitted, GuardResult.admitted,
        GuardResult.admitted, GuardResult.admitted, GuardResult.rateLimited] ∧
      guardResponse GuardResult.rateLimited = some ERROR_RATE_LIMIT ∧
      lookupA (runGuard initState
        [Event.request "9.9.9.9" 0, Event.request "9.9.9.9" 1, Event.request "9.9.9.9" 2,
          Event.request "9.9.9.9" 3, Event.request "9.9.9.9" 4,
          Event.request "9.9.9.9" 5]).1.clientRecord "9.9.9.9" =
        some [0, 1, 2, 3, 4, 5] := by
  have h := C4_sixth_request_rate_limited "9.9.9.9" (fun i => i.val) (by decide)
    (fun i j hij => hij) (by decide)
  simpa using h

/-! ## Claim C2 -/

/-- C2 (amended): every single invocation of the data handler writes
exactly one response and then closes the connection (the `finally` block
always ends the socket), so a connection that delivers exactly one data
event produces exactly one response.  The handler itself carries no
terminal-state guard, so each further data event writes one more
response (see the counterexample). -/
theorem C2_handler_single_response (d : Coord → Coord → Rat)
    (parse : String → Option ActionMsg) (pr : List (String × PeerInfo))
    (ip : String) (now : Nat) (provider : Option ProviderData)
    (buffer chunk : String) :
    (handleData d parse pr ip now provider buffer chunk).responses.length = 1 ∧
      (handleData d parse pr ip now provider buffer chunk).ended = true ∧
      (sessionRun d parse ip now provider pr buffer [chunk]).length = 1 := by
  have h : ∀ (pr2 : List (String × PeerInfo)) (b c : String),
      (handleData d parse pr2 ip now provider b c).responses.length = 1 ∧
        (handleData d parse pr2 ip now provider b c).ended = true := by
    intro pr2 b c
    simp only [handleData]
    by_cases hlen : (b ++ c).length > 2048
    · rw [if_pos hlen]
      exact ⟨rfl, rfl⟩
    · rw [if_neg hlen]
      cases hp : parse (b ++ c).trim with
      | none => exact ⟨rfl, rfl⟩
      | some a => exact ⟨rfl, rfl⟩
  refine ⟨(h pr buffer chunk).1, (h pr buffer chunk).2, ?_⟩
  simp only [sessionRun, List.length_append, List.length_nil]
  rw [(h pr buffer chunk).1]

/-- C2 (counterexample): one accepted connection that delivers two data
chunks gets two responses written, refuting "exactly one response is
produced per accepted connection" and "the session never writes a second
response after reaching a terminal outcome".  The chunks are "a" and "b":
`JSON.parse` throws on every buffer arising here ("a", "ab"), which the
parse parameter `fun _ => none` reflects, so each of the two handler
invocations writes ERROR_INVALID_JSON (2001) and calls `end`, the second
one after the first invocation already ended the socket. -/
theorem C2_second_chunk_second_response :
    sessionRun (fun _ _ => 0) (fun _ => none) "1.2.3.4" 0 none [] "" ["a", "b"] =
        [ERROR_INVALID_JSON, ERROR_INVALID_JSON] ∧
      (sessionRun (fun _ _ => 0) (fun _ => none) "1.2.3.4" 0 none [] "" ["a", "b"]).length ≠ 1 :=
  ⟨by decide, by decide⟩

/-! ## Registry-trace lemmas -/

theorem keys_filter {β : Type} {p : String × β → Bool} {m : List (String × β)}
    {k : String} (h : k ∈ (m.filter p).map Prod.fst) : k ∈ m.map Prod.fst := by
  obtain ⟨kv, hkv, hfst⟩ := List.mem_map.mp h
  exact List.mem_map.mpr ⟨kv, (List.mem_filter.mp hkv).1, hfst⟩

theorem buildPeers_keys {d : Coord → Coord → Rat} {pr : List (String × PeerInfo)}
    {geo : Coord} {e : PeerEntry} (h : e ∈ buildPeers d pr geo) :
    e.ip ∈ pr.map Prod.fst := by
  obtain ⟨⟨kv, hkv, he⟩, _, _⟩ := buildPeers_mem h
  subst he
  exact List.mem_map.mpr ⟨kv, hkv, rfl⟩

theorem registerStep_keys {d : Coord → Coord → Rat} {pr : List (String × PeerInfo)}
    {ip : String} {now : Nat} {provider : Option ProviderData} {k : String}
    (h : k ∈ (registerStep d pr ip now provider).peerRecord.map Prod.fst) :
    k ∈ pr.map Prod.fst ∨ k = ip := by
  unfold registerStep at h
  cases hl : lookupA pr ip with
  | some info =>
      rw [hl] at h
      exact (keys_insertA pr ip k _).mp h
  | none =>
      rw [hl] at h
      cases hg : getGeo ip provider with
      | none =>
          rw [hg] at h
          exact Or.inl h
      | some g =>
          rw [hg] at h
          exact (keys_insertA pr ip k _).mp h

theorem registerStep_peers_keys {d : Coord → Coord → Rat}
    {pr : List (String × PeerInfo)} {ip : String} {now : Nat}
    {provider : Option ProviderData} {ps : List PeerEntry} {e : PeerEntry}
    (hps : (registerStep d pr ip now provider).peers = some ps) (he : e ∈ ps) :
    e.ip ∈ pr.map Prod.fst ∨ e.ip = ip := by
  unfold registerStep at hps
  cases hl : lookupA pr ip with
  | some info =>
      rw [hl] at hps
      simp only [Option.some.injEq] at hps
      subst hps
      have hb := buildPeers_keys (List.mem_of_mem_take he)
      exact (keys_insertA pr ip e.ip _).mp hb
  | none =>
      rw [hl] at hps
      cases hg : getGeo ip provider with
      | none =>
          rw [hg] at hps
          simp at hps
      | some g =>
          rw [hg] at hps
          simp only [Option.some.injEq] at hps
          subst hps
          have hb := buildPeers_keys (List.mem_of_mem_take he)
          exact (keys_insertA pr ip e.ip _).mp hb

/-- One registry event keeps an address absent, provided the event is not
a register for that very address, and no peer entry keyed by the absent
address is emitted. -/
theorem applyPeerEvent_absent (d : Coord → Coord → Rat)
    {pr : List (String × PeerInfo)} {addr : String} {e : PeerEvent}
    (h : addr ∉ pr.map Prod.fst)
    (hne : ∀ n p, e ≠ PeerEvent.register addr n p) :
    addr ∉ (applyPeerEvent d pr e).1.map Prod.fst ∧
      ∀ out, (applyPeerEvent d pr e).2 = some out → ∀ x ∈ out.2, x.ip ≠ addr := by
  cases e with
  | register ip now provider =>
      have hip : ip ≠ addr := by
        intro hc
        exact hne now provider (by rw [hc])
      constructor
      · intro hmem
        rcases registerStep_keys hmem with hm | hm
        · exact h hm
        · exact hip hm.symm
      · intro out hout x hx hxaddr
        simp only [applyPeerEvent] at hout
        cases hps : (registerStep d pr ip now provider).peers with
        | none =>
            rw [hps] at hout
            cases hout
        | some ps =>
            rw [hps] at hout
            simp only [Option.map_some', Option.some.injEq] at hout
            subst hout
            rcases registerStep_peers_keys hps hx with hm | hm
            · rw [hxaddr] at hm
              exact h hm
            · rw [hxaddr] at hm
              exact hip hm.symm
  | unregister ip =>
      refine ⟨?_, by intro out hout; simp [applyPeerEvent] at hout⟩
      intro hmem
      obtain ⟨kv, hkv, hfst⟩ := List.mem_map.mp hmem
      exact h (List.mem_map.mpr ⟨kv, mem_eraseA hkv, hfst⟩)
  | heartbeat ip now =>
      cases hl : lookupA pr ip with
      | some info =>
          have hip : ip ≠ addr := by
            intro hc
            rw [hc] at hl
            rw [lookupA_eq_none.mpr h] at hl
            cases hl
          refine ⟨?_, by intro out hout; simp [applyPeerEvent, hl] at hout⟩
          intro hmem
          simp only [applyPeerEvent, hl] at hmem
          rcases (keys_insertA pr ip addr _).mp hmem with hm | hm
          · exact h hm
          · exact hip hm.symm
      | none =>
          refine ⟨?_, by intro out hout; simp [applyPeerEvent, hl] at hout⟩
          simp only [applyPeerEvent, hl]
          exact h
  | sweep now =>
      refine ⟨?_, by intro out hout; simp [applyPeerEvent] at hout⟩
      intro hmem
      exact h (keys_filter hmem)

/-- Along any registry-event trace with no register for `addr`, an absent
`addr` stays absent and never appears among the emitted peer entries. -/
theorem runPeerTrace_absent (d : Coord → Coord → Rat) (addr : String)
    (evs : List PeerEvent) (pr : List (String × PeerInfo))
    (h : addr ∉ pr.map Prod.fst)
    (hne : ∀ e ∈ evs, ∀ n p, e ≠ PeerEvent.register addr n p) :
    addr ∉ (runPeerTrace d pr evs).1.map Prod.fst ∧
      ∀ out ∈ (runPeerTrace d pr evs).2, ∀ x ∈ out.2, x.ip ≠ addr := by
  induction evs generalizing pr with
  | nil =>
      simp only [runPeerTrace]
      exact ⟨h, by simp⟩
  | cons e rest ih =>
      have hstep := applyPeerEvent_absent d h (hne e (List.mem_cons_self e rest))
      have ihh := ih (applyPeerEvent d pr e).1 hstep.1
        (fun e2 he2 => hne e2 (List.mem_cons_of_mem e he2))
      simp only [runPeerTrace]
      refine ⟨ihh.1, ?_⟩
      intro out hout
      cases hr : (applyPeerEvent d pr e).2 with
      | some o =>
          rw [hr] at hout
          rcases List.mem_cons.mp hout with hout | hout
          · subst hout
            exact hstep.2 out hr
          · exact ihh.2 out hout
      | none =>
          rw [hr] at hout
          exact ihh.2 out hout

/-! ## Claim C7 -/

/-- C7: the staleness sweep removes exactly the records with
`now - lastSeen > PEER_TIMEOUT_MS` (strict comparison), so an address
whose every record is stale is absent after the sweep; and along any
following event trace that contains no new register for that address the
address stays absent and never appears in the peers list of any register
response. -/
theorem C7_sweep_removes_stale (d : Coord → Coord → Rat)
    (pr : List (String × PeerInfo)) (now : Nat) (addr : String)
    (evs : List PeerEvent)
    (hstale : ∀ info, (addr, info) ∈ pr → PEER_TIMEOUT_MS < now - info.lastSeen)
    (hne : ∀ e ∈ evs, ∀ n p, e ≠ PeerEvent.register addr n p) :
    (∀ kv, kv ∈ sweepPeers pr now ↔
        kv ∈ pr ∧ ¬ now - kv.2.lastSeen > PEER_TIMEOUT_MS) ∧
      addr ∉ (sweepPeers pr now).map Prod.fst ∧
      addr ∉ (runPeerTrace d (sweepPeers pr now) evs).1.map Prod.fst ∧
      ∀ out ∈ (runPeerTrace d (sweepPeers pr now) evs).2, ∀ x ∈ out.2, x.ip ≠ addr := by
  have hmem : ∀ kv, kv ∈ sweepPeers pr now ↔
      kv ∈ pr ∧ ¬ now - kv.2.lastSeen > PEER_TIMEOUT_MS := by
    intro kv
    simp [sweepPeers, List.mem_filter]
  have habs : addr ∉ (sweepPeers pr now).map Prod.fst := by
    intro hmem2
    obtain ⟨kv, hkv, hfst⟩ := List.mem_map.mp hmem2
    obtain ⟨hin, hns⟩ := (hmem kv).mp hkv
    obtain ⟨k1, info⟩ := kv
    subst hfst
    exact hns (hstale info hin)
  have htr := runPeerTrace_absent d addr evs (sweepPeers pr now) habs hne
  exact ⟨hmem, habs, htr.1, htr.2⟩

def prC7 : List (String × PeerInfo) := [("7.7.7.7", PeerInfo.mk ⟨5, 6⟩ 0 0)]

def evsC7 : List PeerEvent :=
  [PeerEvent.register "1.2.3.4" 300002 (some (ProviderData.mk (some 10) (some 10)))]

theorem C7_witness :
    "7.7.7.7" ∉ (sweepPeers prC7 300001).map Prod.fst ∧
      "7.7.7.7" ∉ (runPeerTrace dW (sweepPeers prC7 300001) evsC7).1.map Prod.fst ∧
      (runPeerTrace dW (sweepPeers prC7 300001) evsC7).2 =
        [("1.2.3.4", [PeerEntry.mk "1.2.3.4" 10 10])] := by
  have h := C7_sweep_removes_stale dW prC7 300001 "7.7.7.7" evsC7
    (by
      intro info hin
      simp only [prC7] at hin
      rw [List.mem_singleton] at hin
      have hinfo : info = PeerInfo.mk ⟨5, 6⟩ 0 0 := by
        have := congrArg Prod.snd hin
        simpa using this
      subst hinfo
      decide)
    (by
      intro e he n p
      simp only [evsC7] at he
      rw [List.mem_singleton] at he
      subst he
      intro hc
      injection hc with h1 h2 h3
      exact absurd h1 (by decide))
  exact ⟨h.2.1, h.2.2.1, by decide⟩

/-! ## Private-address invariant -/

/-- Every stored record for a private/loopback source address carries the
dummy coordinate `(0, 0)`. -/
def PrivDummy (pr : List (String × PeerInfo)) : Prop :=
  ∀ kv ∈ pr, isPrivateIP kv.1 = true → kv.2.geo = ⟨0, 0⟩

theorem getGeo_private {ip : String} {provider : Option ProviderData}
    (h : isPrivateIP ip = true) : getGeo ip provider = some ⟨0, 0⟩ := by
  simp [getGeo, h]

theorem registerStep_privDummy {d : Coord → Coord → Rat}
    {pr : List (String × PeerInfo)} {ip : String} {now : Nat}
    {provider : Option ProviderData} (h : PrivDummy pr) :
    PrivDummy (registerStep d pr ip now provider).peerRecord := by
  unfold registerStep
  cases hl : lookupA pr ip with
  | some info =>
      intro kv hkv hpriv
      rcases mem_insertA hkv with hm | hm
      · exact h kv hm hpriv
      · subst hm
        exact h (ip, info) (lookupA_mem hl) hpriv
  | none =>
      cases hg : getGeo ip provider with
      | none => exact h
      | some g =>
          intro kv hkv hpriv
          rcases mem_insertA hkv with hm | hm
          · exact h kv hm hpriv
          · subst hm
            have := @getGeo_private ip provider hpriv
            rw [hg] at this
            simp only [Option.some.injEq] at this
            simp [this]

theorem registerStep_peers_private {d : Coord → Coord → Rat}
    {pr : List (String × PeerInfo)} {ip : String} {now : Nat}
    {provider : Option ProviderData} {ps : List PeerEntry} {e : PeerEntry}
    (h : PrivDummy (registerStep d pr ip now provider).peerRecord)
    (hps : (registerStep d pr ip now provider).peers = some ps) (he : e ∈ ps) :
    isPrivateIP e.ip = false := by
  by_contra hc
  rw [Bool.not_eq_false] at hc
  unfold registerStep at h hps
  cases hl : lookupA pr ip with
  | some info =>
      rw [hl] at h hps
      simp only [Option.some.injEq] at hps
      subst hps
      obtain ⟨⟨kv, hkv, hee⟩, hlat, _⟩ := buildPeers_mem (List.mem_of_mem_take he)
      subst hee
      have := h kv hkv hc
      rw [this] at hlat
      exact hlat rfl
  | none =>
      rw [hl] at h hps
      cases hg : getGeo ip provider with
      | none =>
          rw [hg] at hps
          cases hps
      | some g =>
          rw [hg] at h hps
          simp only [Option.some.injEq] at hps
          subst hps
          obtain ⟨⟨kv, hkv, hee⟩, hlat, _⟩ := buildPeers_mem (List.mem_of_mem_take he)
          subst hee
          have := h kv hkv hc
          rw [this] at hlat
          exact hlat rfl

theorem applyPeerEvent_privDummy (d : Coord → Coord → Rat) (e : PeerEvent)
    {pr : List (String × PeerInfo)} (h : PrivDummy pr) :
    PrivDummy (applyPeerEvent d pr e).1 ∧
      ∀ out, (applyPeerEvent d pr e).2 = some out →
        ∀ x ∈ out.2, isPrivateIP x.ip = false := by
  cases e with
  | register ip now provider =>
      refine ⟨registerStep_privDummy h, ?_⟩
      intro out hout x hx
      simp only [applyPeerEvent] at hout
      cases hps : (registerStep d pr ip now provider).peers with
      | none =>
          rw [hps] at hout
          cases hout
      | some ps =>
          rw [hps] at hout
          simp only [Option.map_some', Option.some.injEq] at hout
          subst hout
          exact registerStep_peers_private (registerStep_privDummy h) hps hx
  | unregister ip =>
      refine ⟨?_, by intro out hout; simp [applyPeerEvent] at hout⟩
      intro kv hkv hpriv
      exact h kv (mem_eraseA hkv) hpriv
  | heartbeat ip now =>
      cases hl : lookupA pr ip with
      | some info =>
          refine ⟨?_, by intro out hout; simp [applyPeerEvent, hl] at hout⟩
          simp only [applyPeerEvent, hl]
          intro kv hkv hpriv
          rcases mem_insertA hkv with hm | hm
          · exact h kv hm hpriv
          · subst hm
            exact h (ip, info) (lookupA_mem hl) hpriv
      | none =>
          refine ⟨?_, by intro out hout; simp [applyPeerEvent, hl] at hout⟩
          simp only [applyPeerEvent, hl]
          exact h
  | sweep now =>
      refine ⟨?_, by intro out hout; simp [applyPeerEvent] at hout⟩
      intro kv hkv hpriv
      exact h kv (List.mem_filter.mp hkv).1 hpriv

theorem runPeerTrace_privDummy (d : Coord → Coord → Rat)
    (evs : List PeerEvent) (pr : List (String × PeerInfo)) (h : PrivDummy pr) :
    PrivDummy (runPeerTrace d pr evs).1 ∧
      ∀ out ∈ (runPeerTrace d pr evs).2, ∀ x ∈ out.2, isPrivateIP x.ip = false := by
  induction evs generalizing pr with
  | nil =>
      simp only [runPeerTrace]
      exact ⟨h, by simp⟩
  | cons e rest ih =>
      have hstep := applyPeerEvent_privDummy d e h
      have ihh := ih (applyPeerEvent d pr e).1 hstep.1
      simp only [runPeerTrace]
      refine ⟨ihh.1, ?_⟩
      intro out hout
      cases hr : (applyPeerEvent d pr e).2 with
      | some o =>
          rw [hr] at hout
          rcases List.mem_cons.mp hout with hout | hout
          · subst hout
            exact hstep.2 out hr
          · exact ihh.2 out hout
      | none =>
          rw [hr] at hout
          exact ihh.2 out hout

/-! ## Claim C9 -/

/-- C9: along every event trace from the empty registry, each stored
record for a private-range or loopback source address carries the dummy
coordinate (0, 0), and no register response — including the private
registrant's own — ever lists a peer entry with a private source address:
dummy coordinates are filtered out of the candidate list. -/
theorem C9_private_dummy_and_hidden (d : Coord → Coord → Rat)
    (evs : List PeerEvent) :
    PrivDummy (runPeerTrace d [] evs).1 ∧
      ∀ out ∈ (runPeerTrace d [] evs).2, ∀ x ∈ out.2, isPrivateIP x.ip = false :=
  runPeerTrace_privDummy d evs [] (by intro kv hkv; cases hkv)

def evsC9 : List PeerEvent :=
  [PeerEvent.register "10.0.0.5" 3 none,
    PeerEvent.register "1.2.3.4" 4 (some (ProviderData.mk (some 10) (some 10)))]

theorem C9_witness :
    ("10.0.0.5", PeerInfo.mk ⟨0, 0⟩ 3 3) ∈ (runPeerTrace dW [] evsC9).1 ∧
      (PeerInfo.mk ⟨0, 0⟩ 3 3).geo = ⟨0, 0⟩ ∧
      ("1.2.3.4", [PeerEntry.mk "1.2.3.4" 10 10]) ∈ (runPeerTrace dW [] evsC9).2 ∧
      isPrivateIP (PeerEntry.mk "1.2.3.4" 10 10).ip = false := by
  have h := C9_private_dummy_and_hidden dW evsC9
  refine ⟨by decide, ?_, by decide, ?_⟩
  · exact h.1 ("10.0.0.5", PeerInfo.mk ⟨0, 0⟩ 3 3) (by decide) (by decide)
  · exact h.2 ("1.2.3.4", [PeerEntry.mk "1.2.3.4" 10 10]) (by decide)
      (PeerEntry.mk "1.2.3.4" 10 10) (by decide)

end AudoTracker
